import Mathlib

/-!
# Verification of the variable-length-masking notebook

A shallow embedding of the padding-and-masking pipeline of
`variable_length_masking.ipynb`: sequences are lists of fixed-width feature
vectors (rational components standing for the notebook's float32 values),
padding right-fills with the zero sentinel, the mask marks timesteps whose
feature vector is not entirely zero, and the two-layer recurrent stack is
modelled with abstract step functions for the two LSTM layers and the final
dense layer.  The masked model carries the hidden state forward unchanged at
masked timesteps and applies the ordinary transition elsewhere.
-/

set_option autoImplicit false

namespace VarLenMasking

/-- One timestep's feature vector (a row of the 2D per-sequence array). -/
abbrev FeatureVec := List ℚ

/-- The predicate `(row == 0).all(axis=-1)`: true when every feature
component equals the zero sentinel.  This is both the predicate the
notebook's filter uses and the complement of the keras
`Masking(mask_value=0.0)` mask bit. -/
def allZero (x : FeatureVec) : Bool := x.all (fun a => a == 0)

/-- A feature row filled with the zero sentinel, of width `F`. -/
def zeroRow (F : ℕ) : FeatureVec := List.replicate F 0

/-- The filter `data = [row[~(row == 0).all(axis=-1)] for row in data]`:
remove the constituents of a jet whose feature components are all zero. -/
def removeZeroConstituents (jet : List FeatureVec) : List FeatureVec :=
  jet.filter (fun r => !(allZero r))

/-- The whole-dataset zero-constituent filter (the list comprehension maps
the per-jet filter over every row of the dataset). -/
def cleanData (d : List (List FeatureVec)) : List (List FeatureVec) :=
  d.map removeZeroConstituents

/-- Modelled from the spec: padding one sequence to length `L` — the sequence
is copied into the prefix and the remainder is filled with zeros (§4.1; the
notebook calls `pad_sequences(..., padding="post", dtype="float32")` with `L`
the batch maximum, which is never below the sequence length). -/
def padOne (F L : ℕ) (s : List FeatureVec) : List FeatureVec :=
  s ++ List.replicate (L - s.length) (zeroRow F)

/-- The lengths of the sequences of a batch. -/
def seqLengths (b : List (List FeatureVec)) : List ℕ := b.map List.length

/-- The maximum sequence length of a batch. -/
def maxLen (b : List (List FeatureVec)) : ℕ := (seqLengths b).foldr max 0

/-- Modelled from the spec: `tf.keras.preprocessing.sequence.pad_sequences`
on a batch — one 3D array `[batch, max(length_i), F]`, each sequence in the
prefix of its row, zeros after (§4.1).  The only error condition is empty
input (the batch maximum is undefined there), modelled as `none`. -/
def pad_sequences (F : ℕ) (b : List (List FeatureVec)) :
    Option (List (List FeatureVec)) :=
  if b = [] then none else some (b.map (padOne F (maxLen b)))

/-- Modelled from the spec: the mask bit of `Masking(mask_value=0.0)` for one
timestep — true when the row is real data, i.e. not every component equals
the sentinel. -/
def maskRow (x : FeatureVec) : Bool := !(allZero x)

/-- The boolean mask derived from a padded tensor, timestep by timestep. -/
def maskOf (p : List (List FeatureVec)) : List (List Bool) :=
  p.map (fun s => s.map maskRow)

/-- Modelled from the spec: the two-layer recurrent stack with a final dense
layer (`LSTM(128, return_sequences=True); LSTM(128); Dense(1)`), with the
LSTM cell transitions kept abstract: `step₁`/`step₂` are the per-timestep
state updates, `out₁` the first layer's per-timestep output fed to the
second, and `dense` the final read-out of the second layer's last state.
A value of this structure is one fixed weight assignment. -/
structure TwoLayerRNN (σ₁ σ₂ : Type) where
  init₁ : σ₁
  step₁ : σ₁ → FeatureVec → σ₁
  out₁ : σ₁ → FeatureVec
  init₂ : σ₂
  step₂ : σ₂ → FeatureVec → σ₂
  dense : σ₂ → ℚ

variable {σ₁ σ₂ : Type}

/-- The joint initial hidden state of the stack. -/
def initState (R : TwoLayerRNN σ₁ σ₂) : σ₁ × σ₂ := (R.init₁, R.init₂)

/-- One unmasked timestep of the stack: layer 1 updates on the input row,
layer 2 updates on layer 1's output at this step. -/
def unmaskedStep (R : TwoLayerRNN σ₁ σ₂) (s : σ₁ × σ₂) (x : FeatureVec) :
    σ₁ × σ₂ :=
  let s₁ := R.step₁ s.1 x
  (s₁, R.step₂ s.2 (R.out₁ s₁))

/-- Modelled from the spec: one masked timestep (§4.2) — at a timestep whose
row is the sentinel the previous hidden state of both recurrent layers is
carried forward unchanged (the mask computed by the `Masking` layer
propagates to both LSTMs); otherwise the ordinary transition applies. -/
def maskedStep (R : TwoLayerRNN σ₁ σ₂) (s : σ₁ × σ₂) (x : FeatureVec) :
    σ₁ × σ₂ :=
  if allZero x then s else unmaskedStep R s x

/-- Run the unmasked stack over a whole sequence. -/
def unmaskedRun (R : TwoLayerRNN σ₁ σ₂) (xs : List FeatureVec) : σ₁ × σ₂ :=
  xs.foldl (unmaskedStep R) (initState R)

/-- Run the masked stack over a whole sequence. -/
def maskedRun (R : TwoLayerRNN σ₁ σ₂) (xs : List FeatureVec) : σ₁ × σ₂ :=
  xs.foldl (maskedStep R) (initState R)

/-- The joint hidden state of the masked stack after the first `t` timesteps
of `xs` (the trace of the masked evaluation). -/
def maskedRunUpTo (R : TwoLayerRNN σ₁ σ₂) (xs : List FeatureVec) (t : ℕ) :
    σ₁ × σ₂ :=
  (xs.take t).foldl (maskedStep R) (initState R)

/-- The unmasked model's scalar output for one sequence (`model` in the
notebook) — the dense layer applied to the second LSTM's final state. -/
def model (R : TwoLayerRNN σ₁ σ₂) (xs : List FeatureVec) : ℚ :=
  R.dense (unmaskedRun R xs).2

/-- The masked model's scalar output for one sequence (`masked_model` in the
notebook). -/
def masked_model (R : TwoLayerRNN σ₁ σ₂) (xs : List FeatureVec) : ℚ :=
  R.dense (maskedRun R xs).2

/-- A concrete weight assignment used to evaluate the embedding on explicit
inputs: both layer states are rationals, each layer's state remembers the
first feature of the most recent input row (keeping the old state on an empty
row), and the dense layer reads the state out directly. -/
def toyRNN : TwoLayerRNN ℚ ℚ where
  init₁ := 0
  step₁ := fun s x => x.headD s
  out₁ := fun s => [s]
  init₂ := 0
  step₂ := fun s y => y.headD s
  dense := fun s => s

/-- A concrete batch: two sequences of feature width 3, of lengths 1 and 2,
so the first is strictly shorter than the batch maximum. -/
def toyBatch : List (List FeatureVec) := [[[1, 1, 1]], [[1, 1, 1], [2, 2, 2]]]

/- ### Basic lemmas -/

/-- The sentinel row is recognised as all-zero. -/
theorem allZero_zeroRow (F : ℕ) : allZero (zeroRow F) = true := by
  induction F with
  | zero => rfl
  | succ n ih =>
    rw [zeroRow, List.replicate_succ]
    simp only [allZero, List.all_cons, beq_self_eq_true, Bool.true_and]
    exact ih

/-- A masked step on the sentinel row leaves the state unchanged. -/
theorem maskedStep_zeroRow (R : TwoLayerRNN σ₁ σ₂) (s : σ₁ × σ₂) (F : ℕ) :
    maskedStep R s (zeroRow F) = s := by
  simp [maskedStep, allZero_zeroRow]

/-- Folding the masked step over any run of sentinel rows is the identity. -/
theorem foldl_maskedStep_replicate (R : TwoLayerRNN σ₁ σ₂) (s : σ₁ × σ₂)
    (F n : ℕ) :
    List.foldl (maskedStep R) s (List.replicate n (zeroRow F)) = s := by
  induction n generalizing s with
  | zero => rfl
  | succ m ih =>
    rw [List.replicate_succ, List.foldl_cons, maskedStep_zeroRow]
    exact ih s

/-- The batch maximum length unfolds over a cons. -/
theorem maxLen_cons (a : List FeatureVec) (t : List (List FeatureVec)) :
    maxLen (a :: t) = max a.length (maxLen t) := rfl

/-- Every member of a batch is at most the batch maximum length. -/
theorem length_le_maxLen {b : List (List FeatureVec)} {s : List FeatureVec}
    (hs : s ∈ b) : s.length ≤ maxLen b := by
  induction b with
  | nil => cases hs
  | cons a t ih =>
    rw [maxLen_cons]
    rcases List.mem_cons.mp hs with rfl | hs
    · exact le_max_left _ _
    · exact le_trans (ih hs) (le_max_right _ _)

/-- Appending sentinel rows to a sequence does not change the masked run. -/
theorem maskedRun_padOne (R : TwoLayerRNN σ₁ σ₂) (F L : ℕ)
    (S : List FeatureVec) : maskedRun R (padOne F L S) = maskedRun R S := by
  rw [maskedRun, padOne, List.foldl_append, foldl_maskedStep_replicate, maskedRun]

/-- On rows that are never all-zero, the masked and unmasked folds agree from
any starting state. -/
theorem foldl_masked_eq_unmasked (R : TwoLayerRNN σ₁ σ₂) (s : σ₁ × σ₂)
    (xs : List FeatureVec) (h : ∀ r ∈ xs, allZero r = false) :
    xs.foldl (maskedStep R) s = xs.foldl (unmaskedStep R) s := by
  induction xs generalizing s with
  | nil => rfl
  | cons x t ih =>
    have hx : allZero x = false := h x (List.mem_cons_self x t)
    rw [List.foldl_cons, List.foldl_cons]
    simp only [maskedStep, hx, Bool.false_eq_true, if_false]
    exact ih _ (fun r hr => h r (List.mem_cons_of_mem x hr))

/-- The mask bit of the sentinel row is false. -/
theorem maskRow_zeroRow (F : ℕ) : maskRow (zeroRow F) = false := by
  simp [maskRow, allZero_zeroRow]

/-- On a sequence without all-zero rows the mask is true everywhere. -/
theorem map_maskRow_of_no_zero {S : List FeatureVec}
    (h : ∀ r ∈ S, allZero r = false) :
    S.map maskRow = List.replicate S.length true := by
  induction S with
  | nil => rfl
  | cons x t ih =>
    rw [List.map_cons, List.length_cons, List.replicate_succ, maskRow,
      h x (List.mem_cons_self x t),
      ih (fun r hr => h r (List.mem_cons_of_mem x hr))]
    rfl

/-- The length of a padded sequence is the target length. -/
theorem padOne_length (F L : ℕ) (S : List FeatureVec) (h : S.length ≤ L) :
    (padOne F L S).length = L := by
  rw [padOne, List.length_append, List.length_replicate]
  omega

/- ### Claim theorems -/

/-- C2: padding a sequence to length `L ≥ len(S)` with the zero sentinel and
truncating back to `len(S)` reproduces `S` exactly: the padded row's
non-padded prefix is identical to the original sequence. -/
theorem pad_roundtrip (F L : ℕ) (S : List FeatureVec) (h : S.length ≤ L) :
    (padOne F L S).take S.length = S := by
  rw [padOne, List.take_left]

/-- Witness for C2 at a concrete sequence of width 2 padded to length 5. -/
theorem pad_roundtrip_witness :
    ([[(1 : ℚ), 2]] : List FeatureVec).length ≤ 5 ∧
    (padOne 2 5 [[(1 : ℚ), 2]]).take 1 = [[(1 : ℚ), 2]] :=
  ⟨by decide, pad_roundtrip 2 5 [[(1 : ℚ), 2]] (by decide)⟩

/-- Folding the masked step over a sequence of all-zero rows is the
identity. -/
theorem foldl_maskedStep_all_zero (R : TwoLayerRNN σ₁ σ₂) (s : σ₁ × σ₂)
    (xs : List FeatureVec) (h : ∀ r ∈ xs, allZero r = true) :
    xs.foldl (maskedStep R) s = s := by
  induction xs generalizing s with
  | nil => rfl
  | cons x t ih =>
    have hx : allZero x = true := h x (List.mem_cons_self x t)
    rw [List.foldl_cons]
    simp only [maskedStep, hx, if_true]
    exact ih s (fun r hr => h r (List.mem_cons_of_mem x hr))

/-- C6: a sequence consisting entirely of the sentinel value (all-zero at
every timestep) is treated as masked at every step: the masked model outputs
the network's initial-state response — the dense read-out of the untouched
initial state — identical to its output on the empty (fully padded,
length-zero) sequence. -/
theorem all_zero_is_initial_response (R : TwoLayerRNN σ₁ σ₂)
    (xs : List FeatureVec) (h : ∀ r ∈ xs, allZero r = true) :
    masked_model R xs = R.dense R.init₂ ∧
    masked_model R xs = masked_model R [] := by
  constructor <;> rw [masked_model, maskedRun, foldl_maskedStep_all_zero R _ xs h] <;> rfl

/-- Witness for C6 on a concrete all-zero sequence of width 2 and length
2. -/
theorem all_zero_is_initial_response_witness :
    masked_model toyRNN [[(0 : ℚ), 0], [0, 0]] = toyRNN.dense toyRNN.init₂ ∧
    masked_model toyRNN [[(0 : ℚ), 0], [0, 0]] = masked_model toyRNN [] :=
  all_zero_is_initial_response toyRNN _ (by decide)

/-- C9: the zero-constituent filter (`row[~(row == 0).all(axis=-1)]`, mapped
over the dataset) removes every all-zero feature row, interior ones included:
no sequence it retains contains an all-zero timestep. -/
theorem cleanData_no_zero_rows (d : List (List FeatureVec)) :
    ((cleanData d).all (fun jet => jet.all (fun r => !(allZero r)))) = true := by
  rw [List.all_eq_true]
  intro jet hjet
  rw [List.all_eq_true]
  intro r hr
  obtain ⟨j, hj, rfl⟩ := List.mem_map.mp hjet
  simpa using (List.mem_filter.mp hr).2

/-- C10: with the same weight assignment in both stacks (the `Masking` layer
itself has no weights), the masked and the unmasked model agree on every
input sequence that contains no all-zero timestep. -/
theorem masked_model_eq_model (R : TwoLayerRNN σ₁ σ₂) (xs : List FeatureVec)
    (h : ∀ r ∈ xs, allZero r = false) :
    masked_model R xs = model R xs := by
  rw [masked_model, model, maskedRun, unmaskedRun,
    foldl_masked_eq_unmasked R _ xs h]

/-- Witness for C10 at a concrete weight assignment and zero-free input. -/
theorem masked_model_eq_model_witness :
    masked_model toyRNN [[(1 : ℚ)], [(2 : ℚ)]] =
      model toyRNN [[(1 : ℚ)], [(2 : ℚ)]] :=
  masked_model_eq_model toyRNN _ (by decide)

/-- C1: for every weight assignment, evaluating the masked model on a
zero-padded batch gives, for each sequence `i`, the same output as evaluating
the masked-recurrent computation on sequence `i` alone, unpadded (equality is
exact in the rational-arithmetic model). -/
theorem masked_batch_eq_per_sequence (F : ℕ) (R : TwoLayerRNN σ₁ σ₂)
    (b p : List (List FeatureVec)) (h : pad_sequences F b = some p)
    (i : ℕ) (hb : i < b.length) (hp : i < p.length) :
    masked_model R p[i] = masked_model R b[i] := by
  rw [pad_sequences] at h
  split_ifs at h with hbe
  cases h
  rw [List.getElem_map, masked_model, maskedRun_padOne, masked_model]

/-- Witness for C1 on the concrete two-sequence batch. -/
theorem masked_batch_eq_per_sequence_witness :
    masked_model toyRNN [[(1 : ℚ), 1, 1], [0, 0, 0]] =
      masked_model toyRNN [[(1 : ℚ), 1, 1]] := by
  have h := masked_batch_eq_per_sequence 3 toyRNN toyBatch
    [[[1, 1, 1], [0, 0, 0]], [[1, 1, 1], [2, 2, 2]]]
    (by decide) 0 (by decide) (by decide)
  simpa [toyBatch] using h

/-- C3 counterexample: a batch whose single sequence has the all-zero row as
its only timestep.  The claim requires the mask to be true for the sequence's
one original position, but the derived mask compares against the zero
sentinel and is false there. -/
theorem mask_counterexample :
    pad_sequences 2 [[zeroRow 2]] = some [[zeroRow 2]] ∧
    maskOf [[zeroRow 2]] ≠ [[true]] := by
  constructor
  · decide
  · decide

/-- C3 amended: for every batch whose sequences contain no all-zero timestep,
the mask derived from the padded tensor has, for sequence `i`, exactly
`len(S_i)` true entries, contiguous from position 0 and false thereafter. -/
theorem mask_matches_lengths (F : ℕ) (b p : List (List FeatureVec))
    (h : pad_sequences F b = some p)
    (hz : ∀ s ∈ b, ∀ r ∈ s, allZero r = false)
    (i : ℕ) (hb : i < b.length) (hm : i < (maskOf p).length) :
    (maskOf p)[i] =
      List.replicate (b[i].length) true ++
        List.replicate (maxLen b - b[i].length) false := by
  rw [pad_sequences] at h
  split_ifs at h with hbe
  cases h
  simp only [maskOf, List.getElem_map]
  rw [padOne, List.map_append, List.map_replicate, maskRow_zeroRow,
    map_maskRow_of_no_zero (hz _ (List.getElem_mem hb))]

/-- Witness for the amended C3: the spec's concrete scenario — lengths 3 and
5, feature width 2 — whose mask row for the shorter sequence is
`[T,T,T,F,F]`. -/
theorem mask_matches_lengths_witness :
    (maskOf [[[(1 : ℚ), 0], [2, 0], [3, 0], [0, 0], [0, 0]],
      [[(1 : ℚ), 1], [2, 2], [3, 3], [4, 4], [5, 5]]]).getD 0 [] =
      [true, true, true, false, false] := by
  have h := mask_matches_lengths 2
    [[[(1 : ℚ), 0], [2, 0], [3, 0]],
     [[(1 : ℚ), 1], [2, 2], [3, 3], [4, 4], [5, 5]]]
    [[[(1 : ℚ), 0], [2, 0], [3, 0], [0, 0], [0, 0]],
     [[(1 : ℚ), 1], [2, 2], [3, 3], [4, 4], [5, 5]]]
    (by decide) (by decide) 0 (by decide) (by decide)
  simpa using h

/-- C4: one step of the masked evaluation trace — at a timestep whose row is
padding per the mask the hidden state is carried forward unchanged, and at a
timestep with real data the ordinary recurrent transition applies. -/
theorem masked_step_frame (R : TwoLayerRNN σ₁ σ₂) (xs : List FeatureVec)
    (t : ℕ) (ht : t < xs.length) :
    maskedRunUpTo R xs (t + 1) =
      if allZero xs[t] then maskedRunUpTo R xs t
      else unmaskedStep R (maskedRunUpTo R xs t) xs[t] := by
  have hsplit : List.take (t + 1) xs = List.take t xs ++ [xs[t]] := by
    rw [List.take_succ, List.getElem?_eq_getElem ht]
    rfl
  rw [maskedRunUpTo, maskedRunUpTo, hsplit, List.foldl_append,
    List.foldl_cons, List.foldl_nil, maskedStep]

/-- Witness for C4: a masked timestep on a concrete input carries the state
forward. -/
theorem masked_step_frame_witness :
    maskedRunUpTo toyRNN [[(1 : ℚ)], [0]] 2 =
      maskedRunUpTo toyRNN [[(1 : ℚ)], [0]] 1 :=
  (masked_step_frame toyRNN [[(1 : ℚ)], [0]] 1 (by decide)).trans (by decide)

/-- C5: on a batch whose first sequence is strictly shorter than the batch
maximum, the unmasked model evaluated on the zero-padded input differs from
its evaluation on the same sequence unpadded. -/
theorem unmasked_padded_differs :
    (toyBatch.getD 0 []).length < maxLen toyBatch ∧
    model toyRNN (((pad_sequences 3 toyBatch).getD []).getD 0 []) ≠
      model toyRNN (toyBatch.getD 0 []) := by
  constructor
  · decide
  · decide

/-- C7: the padding routine returns a batch of `b.length` rows, each of the
batch-maximum length, each row's feature vectors of width `F`, with each
sequence occupying the prefix of its row and every remaining entry the zero
sentinel. -/
theorem pad_sequences_shape (F : ℕ) (b p : List (List FeatureVec))
    (h : pad_sequences F b = some p)
    (hF : ∀ s ∈ b, ∀ r ∈ s, r.length = F) :
    p.length = b.length ∧
    (∀ q ∈ p, q.length = maxLen b) ∧
    (∀ q ∈ p, ∀ r ∈ q, r.length = F) ∧
    ∀ (i : ℕ) (hb : i < b.length) (hp : i < p.length),
      p[i].take (b[i].length) = b[i] ∧
      p[i].drop (b[i].length) =
        List.replicate (maxLen b - b[i].length) (zeroRow F) := by
  rw [pad_sequences] at h
  split_ifs at h with hbe
  cases h
  refine ⟨List.length_map _ _, ?_, ?_, ?_⟩
  · intro q hq
    obtain ⟨s, hs, rfl⟩ := List.mem_map.mp hq
    exact padOne_length F (maxLen b) s (length_le_maxLen hs)
  · intro q hq r hr
    obtain ⟨s, hs, rfl⟩ := List.mem_map.mp hq
    rcases List.mem_append.mp hr with hr | hr
    · exact hF s hs r hr
    · rw [List.eq_of_mem_replicate hr, zeroRow, List.length_replicate]
  · intro i hb hp
    simp only [List.getElem_map]
    constructor
    · rw [padOne, List.take_left]
    · rw [padOne, List.drop_left]

/-- Witness for C7: the concrete batch pads to a 2-row tensor. -/
theorem pad_sequences_shape_witness :
    ([[[(1 : ℚ), 1, 1], [0, 0, 0]], [[(1 : ℚ), 1, 1], [2, 2, 2]]] :
        List (List FeatureVec)).length = toyBatch.length :=
  (pad_sequences_shape 3 toyBatch _ (by decide) (by decide)).1

/-- C8: the padding routine succeeds exactly on non-empty batches — its only
error condition is empty input.  (Freedom from side effects is inherent: the
embedding is a pure function of the batch.) -/
theorem pad_sequences_total (F : ℕ) (b : List (List FeatureVec)) :
    (pad_sequences F b).isSome = true ↔ b ≠ [] := by
  rw [pad_sequences]
  split_ifs with hbe
  · simp [hbe]
  · simp [hbe]

end VarLenMasking
